import Mathlib

/-!
Shallow embedding of the chat relay server of this repository:
`classes/server/server.py` (class `ChatServer`) together with the token
minting of the `/login` route in `app/routes/auth.py`.

Modelling choices:
* a connection handle (a `socket.socket` object) is a natural number;
* the registry `self.clients` is an insertion-ordered association list,
  matching a Python dict (unique keys, insertion order preserved);
* a successful `client.send(text)` is recorded in an append-only delivery
  log `outbox`; `client.send` raises exactly on the handles marked by an
  environment predicate `dead : Handle → Bool`;
* the mutual recursion between `ChatServer.broadcast` (a failed send calls
  `remove_client`) and `ChatServer.remove_client` (which broadcasts the
  departure notice) is bounded by a fuel parameter, consumed only when a
  failed send starts a nested departure broadcast; each such nesting step
  follows the erasure of one registry entry, so a fuel of
  `clients.length + 1` is never exhausted, and the wrappers `broadcast` and
  `removeClient` pass exactly that.
-/

namespace ChatApp

/-- A connection handle: the identity of one `socket.socket` object. -/
abbrev Handle := Nat

/-- The value stored in the registry for one client: the pair
`(client_username, client_id)` built in `ChatServer.start` line 75. -/
abbrev Ident := String × Option Int

/-- Observable server state: the registry `self.clients` and the log of the
successful `client.send` calls made so far. -/
structure ServerState where
  clients : List (Handle × Ident)
  outbox : List (Handle × String)
deriving DecidableEq

/-- Python dict lookup `self.clients[h]` (as an `Option`; the `None` case
corresponds to a `KeyError`, and to `h in self.clients` being false). -/
def clientLookup (h : Handle) : List (Handle × Ident) → Option Ident
  | [] => none
  | p :: rest => if p.1 = h then some p.2 else clientLookup h rest

/-- Effect of `self.clients.pop(h)` on the dict contents: the entry keyed
`h` disappears, all other entries keep their order. -/
def clientErase (h : Handle) : List (Handle × Ident) → List (Handle × Ident)
  | [] => []
  | p :: rest => if p.1 = h then clientErase h rest else p :: clientErase h rest

/-- Python dict assignment `self.clients[h] = v`: an existing key is
overwritten in place, a new key is appended at the end. -/
def dictInsert (h : Handle) (v : Ident) : List (Handle × Ident) → List (Handle × Ident)
  | [] => [(h, v)]
  | p :: rest => if p.1 = h then (h, v) :: rest else p :: dictInsert h v rest

/-- A successful `client.send(msg.encode(...))`: the delivery is logged. -/
def sendTo (c : Handle) (msg : String) (s : ServerState) : ServerState :=
  { s with outbox := s.outbox ++ [(c, msg)] }

/-- Python `str()` of an `Optional[int]`: `None` prints as `None`. -/
def pyStrOptInt : Option Int → String
  | none => "None"
  | some i => toString i

/-- Python `str()` of the registry value tuple `(username, user_id)`, as
interpolated by the f-string in `ChatServer.remove_client` line 135: the
tuple repr, e.g. `(\x27Tester\x27, None)`.  Exact for usernames free of
quotes and escapes. -/
def pyStrIdent (info : Ident) : String :=
  "(\x27" ++ info.1 ++ "\x27, " ++ pyStrOptInt info.2 ++ ")"

/-- The guard `if client_socket and client != client_socket: continue` of
`ChatServer.broadcast` line 146: with a restriction present, every other
recipient is skipped (socket objects are always truthy). -/
def skipRecipient : Option Handle → Handle → Bool
  | none, _ => false
  | some r, c => decide (c ≠ r)

mutual

/-- Loop body of `ChatServer.broadcast` lines 144-154, iterating over the
snapshot `clients_dict = dict(self.clients)` held in `pending`.  A recipient
skipped by the restriction is not contacted; a send to a dead recipient
raises, which is caught and answered by `self.remove_client(client)` and
`client.close()` (the close has no registry or log effect); a live recipient
gets the message delivered. -/
def broadcastAux (dead : Handle → Bool) (msg : String) (restrict : Option Handle)
    (pending : List (Handle × Ident)) (fuel : Nat) (s : ServerState) : ServerState :=
  match pending with
  | [] => s
  | (c, _) :: rest =>
    if skipRecipient restrict c then
      broadcastAux dead msg restrict rest fuel s
    else if dead c then
      broadcastAux dead msg restrict rest fuel (removeClientAux dead c fuel s)
    else
      broadcastAux dead msg restrict rest fuel (sendTo c msg s)
termination_by (fuel, pending.length + 1)

/-- `ChatServer.remove_client` lines 125-135: if the handle is a registry
key, pop its entry and broadcast the departure notice
`f"{username} disconnected"` — where `username` is in fact the whole popped
`(username, user_id)` tuple, so the notice text carries the tuple repr.
Fuel zero stops a (never reached with adequate fuel) unbounded cascade. -/
def removeClientAux (dead : Handle → Bool) (h : Handle) (fuel : Nat) (s : ServerState) :
    ServerState :=
  match clientLookup h s.clients with
  | none => s
  | some info =>
    let s1 : ServerState := { s with clients := clientErase h s.clients }
    match fuel with
    | 0 => s1
    | f + 1 => broadcastAux dead (pyStrIdent info ++ " disconnected") none s1.clients f s1
termination_by (fuel, 0)

end

/-- `ChatServer.broadcast(message, client_socket)`: take the snapshot of the
registry and fan out, with fuel that dominates the removal cascade depth. -/
def broadcast (dead : Handle → Bool) (msg : String) (restrict : Option Handle)
    (s : ServerState) : ServerState :=
  broadcastAux dead msg restrict s.clients (s.clients.length + 1) s

/-- `ChatServer.remove_client(client_socket)` with adequate fuel. -/
def removeClient (dead : Handle → Bool) (h : Handle) (s : ServerState) : ServerState :=
  removeClientAux dead h (s.clients.length + 1) s

/-- Python `"\n".join(users)`. -/
def joinLines : List String → String
  | [] => ""
  | [u] => u
  | u :: rest => u ++ "\n" ++ joinLines rest

/-- `ChatServer.show_online_users` lines 156-166: render the user directory
from the live registry and broadcast it restricted to the requesting
handle. -/
def showOnlineUsers (dead : Handle → Bool) (h : Handle) (s : ServerState) : ServerState :=
  let users : List String := s.clients.map (fun p => p.2.1)
  let usersOnline : String := toString users.length ++ " USERS ONLINE:\n" ++ joinLines users
  broadcast dead usersOnline (some h) s

/-- The constant `TIMESTAMP_FORMAT` of `server.py` line 18. -/
def TIMESTAMP_FORMAT : String := "%d/%m/%Y %H:%M:%S"

/-- A wall-clock instant, the part of `datetime.now()` the format uses. -/
structure Timestamp where
  day : Nat
  month : Nat
  year : Nat
  hour : Nat
  minute : Nat
  second : Nat

/-- Two-digit zero padding, as `%d`, `%m`, `%H`, `%M`, `%S` render. -/
def pad2 (n : Nat) : String :=
  if n < 10 then "0" ++ toString n else toString n

/-- Four-digit zero padding, as `%Y` renders. -/
def pad4 (n : Nat) : String :=
  if n < 10 then "000" ++ toString n
  else if n < 100 then "00" ++ toString n
  else if n < 1000 then "0" ++ toString n
  else toString n

/-- `datetime.now().strftime(TIMESTAMP_FORMAT)` with the format string
`"%d/%m/%Y %H:%M:%S"`: day, month, year, then time of day. -/
def renderTimestamp (t : Timestamp) : String :=
  pad2 t.day ++ "/" ++ pad2 t.month ++ "/" ++ pad4 t.year ++ " " ++
    pad2 t.hour ++ ":" ++ pad2 t.minute ++ ":" ++ pad2 t.second

/-- One iteration of the `while True` receive loop of
`ChatServer.handle_client` lines 92-123 for one decoded frame `msg`,
including the after-loop cleanup `self.remove_client(client_socket)` and
`client_socket.close()` when this frame exits the loop.  Branches, in
source order: `"!exit"` removes the client and breaks (the after-loop
removal runs again, a no-op); `"!who"` sends the directory and continues;
otherwise the envelope is built from `self.clients[client_socket][0]` (a
`KeyError` here lands in the generic `except` and breaks to the cleanup),
an empty frame breaks to the cleanup before any send, and any other text is
broadcast unrestricted (`store_message_on_database` is `pass`).  The `Bool`
returned is whether the loop terminated. -/
def handleFrame (dead : Handle → Bool) (h : Handle) (now : Timestamp) (msg : String)
    (s : ServerState) : ServerState × Bool :=
  if msg = "!exit" then
    (removeClient dead h (removeClient dead h s), true)
  else if msg = "!who" then
    (showOnlineUsers dead h s, false)
  else
    match clientLookup h s.clients with
    | none => (removeClient dead h s, true)
    | some info =>
      let envelope : String := info.1 ++ " [" ++ renderTimestamp now ++ "]: " ++ msg
      if msg = "" then (removeClient dead h s, true)
      else (broadcast dead envelope none s, false)

/-- A decoded JWT claim value, as far as this system uses them. -/
inductive JVal where
  | str : String → JVal
  | num : Int → JVal
deriving DecidableEq

/-- Dict lookup `decoded_token.get(k)` on the claims of a decoded token. -/
def claimLookup (k : String) : List (String × JVal) → Option JVal
  | [] => none
  | p :: rest => if p.1 = k then some p.2 else claimLookup k rest

/-- A bearer token as `jwt.decode` classifies it: whether its signature
matches the shared secret, whether its expiry claim has passed, and its
payload claims. -/
structure Token where
  sigValid : Bool
  expired : Bool
  claims : List (String × JVal)
deriving DecidableEq

/-- Outcome of `ChatServer.verify_token`: the `except jwt.ExpiredSignatureError`
branch, the `except jwt.InvalidTokenError` branch, or the successful return
of the pair `(decoded_token.get("username"), decoded_token.get("id"))`. -/
inductive VerifyResult where
  | expired : VerifyResult
  | invalid : VerifyResult
  | ok : Option JVal → Option JVal → VerifyResult
deriving DecidableEq

/-- `ChatServer.verify_token` lines 198-205.  `jwt.decode` verifies the
signature before the registered claims, so a bad signature raises
`InvalidTokenError` and a good signature with a passed `exp` claim raises
`ExpiredSignatureError`; otherwise the method returns the two claim values
looked up with `.get`, each `None` when absent. -/
def verify_token (t : Token) : VerifyResult :=
  if !t.sigValid then .invalid
  else if t.expired then .expired
  else .ok (claimLookup "username" t.claims) (claimLookup "id" t.claims)

/-- The pair `(client_username, client_id)` that `verify_token` hands back
to `ChatServer.start` line 73; both components are `None` on either failure
branch (the `return None, None` at line 205). -/
def verifyPair (t : Token) : Option JVal × Option JVal :=
  match verify_token t with
  | .ok u i => (u, i)
  | _ => (none, none)

/-- The stored numeric id: a numeric `id` claim is kept, anything else is
`None` (string-valued id claims are outside this model; the login endpoint
never mints one). -/
def idOfJVal : Option JVal → Option Int
  | some (.num n) => some n
  | _ => none

/-- Registration of an authenticated connection, `ChatServer.start` lines
75-76: add the entry to the registry dict, then broadcast the arrival
notice unrestricted — over the snapshot taken after the add, so the new
member is itself a recipient. -/
def registerClient (dead : Handle → Bool) (h : Handle) (u : String) (uid : Option Int)
    (s : ServerState) : ServerState :=
  let s1 : ServerState := { s with clients := dictInsert h (u, uid) s.clients }
  broadcast dead (u ++ " entered the chat!") none s1

/-- The accept path of `ChatServer.start` lines 71-79 for one connection
`h` presenting token `t`: verify, and when the decoded username is truthy
(`if client_username:`) register and announce, else close the socket with
no registry effect.  Modelling restriction: a truthy username claim is
taken to be a nonempty string, the only shape the login endpoint mints. -/
def acceptClient (dead : Handle → Bool) (h : Handle) (t : Token) (s : ServerState) :
    ServerState :=
  match verifyPair t with
  | (some (.str u), i) =>
    if u = "" then s else registerClient dead h u (idOfJVal i) s
  | _ => s

/-- The JWT minted by the `/login` route, `app/routes/auth.py` lines
101-109: payload `{"user_id": uid, "username": username, "exp": now+10min}`,
signed HS256 with `app.config["SECRET_KEY"]`, which `app/__init__.py` line
22 sets to the same shared `SECRET` that `ChatServer.verify_token` checks —
so the signature validates; within the ten-minute window the token is not
expired.  The `exp` claim itself is carried by the `expired` flag, not the
payload list. -/
def loginToken (username : String) (uid : Int) : Token :=
  { sigValid := true, expired := false,
    claims := [("user_id", .num uid), ("username", .str username)] }

/-- Shape of the joint induction hypothesis for `removeClientAux` at one
fuel level: the registry only shrinks and the log only grows. -/
def RemoveMono (dead : Handle → Bool) (fuel : Nat) : Prop :=
  ∀ (h : Handle) (s : ServerState),
    (∀ p, p ∈ (removeClientAux dead h fuel s).clients → p ∈ s.clients) ∧
    (∃ d, (removeClientAux dead h fuel s).outbox = s.outbox ++ d)

end ChatApp

namespace ChatApp

/-! ## Basic facts about the registry association list -/

theorem clientLookup_eq_none {h : Handle} {l : List (Handle × Ident)} :
    clientLookup h l = none ↔ h ∉ l.map Prod.fst := by
  induction l with
  | nil => simp [clientLookup]
  | cons p rest ih =>
    by_cases hp : p.1 = h
    · simp [clientLookup, hp]
    · have hp2 : ¬h = p.1 := fun hh => hp hh.symm
      simp [clientLookup, hp, ih, hp2]

theorem mem_clientErase {p : Handle × Ident} {h : Handle} {l : List (Handle × Ident)}
    (hm : p ∈ clientErase h l) : p ∈ l := by
  induction l with
  | nil => simp [clientErase] at hm
  | cons q rest ih =>
    by_cases hq : q.1 = h
    · simp only [clientErase, if_pos hq] at hm
      exact List.mem_cons_of_mem q (ih hm)
    · simp only [clientErase, if_neg hq] at hm
      rcases List.mem_cons.mp hm with h1 | h2
      · exact h1 ▸ List.mem_cons_self q rest
      · exact List.mem_cons_of_mem q (ih h2)

theorem keys_clientErase_not_mem {h : Handle} {l : List (Handle × Ident)} :
    h ∉ (clientErase h l).map Prod.fst := by
  induction l with
  | nil => simp [clientErase]
  | cons q rest ih =>
    by_cases hq : q.1 = h
    · simpa [clientErase, hq] using ih
    · have hq2 : ¬h = q.1 := fun hh => hq hh.symm
      simp [clientErase, hq, ih, hq2]

theorem mem_dictInsert_self {h : Handle} {v : Ident} {l : List (Handle × Ident)} :
    (h, v) ∈ dictInsert h v l := by
  induction l with
  | nil => simp [dictInsert]
  | cons q rest ih =>
    by_cases hq : q.1 = h
    · simp [dictInsert, hq]
    · simp [dictInsert, hq, ih]

theorem dictInsert_of_not_mem {h : Handle} {v : Ident} {l : List (Handle × Ident)}
    (hm : h ∉ l.map Prod.fst) : dictInsert h v l = l ++ [(h, v)] := by
  induction l with
  | nil => simp [dictInsert]
  | cons q rest ih =>
    simp only [List.map_cons, List.mem_cons] at hm
    push_neg at hm
    have hq2 : ¬q.1 = h := fun hh => hm.1 hh.symm
    simp [dictInsert, hq2, ih hm.2]

/-! ## Step equations for the fan-out loop -/

theorem broadcastAux_nil {dead : Handle → Bool} {msg : String} {restrict : Option Handle}
    {fuel : Nat} {s : ServerState} :
    broadcastAux dead msg restrict [] fuel s = s := by
  simp [broadcastAux]

theorem broadcastAux_cons_skip {dead : Handle → Bool} {msg : String}
    {restrict : Option Handle} {c : Handle} {i : Ident} {rest : List (Handle × Ident)}
    {fuel : Nat} {s : ServerState} (hsk : skipRecipient restrict c = true) :
    broadcastAux dead msg restrict ((c, i) :: rest) fuel s =
      broadcastAux dead msg restrict rest fuel s := by
  simp only [broadcastAux, hsk, if_true]

theorem broadcastAux_cons_dead {dead : Handle → Bool} {msg : String}
    {restrict : Option Handle} {c : Handle} {i : Ident} {rest : List (Handle × Ident)}
    {fuel : Nat} {s : ServerState} (hsk : skipRecipient restrict c = false)
    (hd : dead c = true) :
    broadcastAux dead msg restrict ((c, i) :: rest) fuel s =
      broadcastAux dead msg restrict rest fuel (removeClientAux dead c fuel s) := by
  simp only [broadcastAux, hsk, hd, Bool.false_eq_true, if_false, if_true]

theorem broadcastAux_cons_send {dead : Handle → Bool} {msg : String}
    {restrict : Option Handle} {c : Handle} {i : Ident} {rest : List (Handle × Ident)}
    {fuel : Nat} {s : ServerState} (hsk : skipRecipient restrict c = false)
    (hd : dead c = false) :
    broadcastAux dead msg restrict ((c, i) :: rest) fuel s =
      broadcastAux dead msg restrict rest fuel (sendTo c msg s) := by
  simp only [broadcastAux, hsk, hd, Bool.false_eq_true, if_false]

theorem removeClientAux_none {dead : Handle → Bool} {h : Handle} {fuel : Nat}
    {s : ServerState} (hl : clientLookup h s.clients = none) :
    removeClientAux dead h fuel s = s := by
  simp [removeClientAux, hl]

theorem removeClientAux_zero_some {dead : Handle → Bool} {h : Handle} {s : ServerState}
    {info : Ident} (hl : clientLookup h s.clients = some info) :
    removeClientAux dead h 0 s = ⟨clientErase h s.clients, s.outbox⟩ := by
  simp [removeClientAux, hl]

theorem removeClientAux_succ_some {dead : Handle → Bool} {h : Handle} {f : Nat}
    {s : ServerState} {info : Ident} (hl : clientLookup h s.clients = some info) :
    removeClientAux dead h (f + 1) s =
      broadcastAux dead (pyStrIdent info ++ " disconnected") none
        (clientErase h s.clients) f ⟨clientErase h s.clients, s.outbox⟩ := by
  simp [removeClientAux, hl]

end ChatApp

namespace ChatApp

/-! ## The fan-out never adds registry entries and only appends deliveries -/

theorem broadcastAux_mono_of_remove {dead : Handle → Bool} {fuel : Nat}
    (hrem : RemoveMono dead fuel) :
    ∀ (pending : List (Handle × Ident)) (msg : String) (restrict : Option Handle)
      (s : ServerState),
      (∀ p, p ∈ (broadcastAux dead msg restrict pending fuel s).clients → p ∈ s.clients) ∧
      (∃ d, (broadcastAux dead msg restrict pending fuel s).outbox = s.outbox ++ d) := by
  intro pending
  induction pending with
  | nil =>
    intro msg restrict s
    refine ⟨fun p hp => ?_, ⟨[], by simp [broadcastAux_nil]⟩⟩
    simpa [broadcastAux_nil] using hp
  | cons q rest ih =>
    intro msg restrict s
    obtain ⟨c, i⟩ := q
    by_cases hsk : skipRecipient restrict c = true
    · rw [broadcastAux_cons_skip hsk]
      exact ih msg restrict s
    · replace hsk : skipRecipient restrict c = false := by
        cases hv : skipRecipient restrict c
        · rfl
        · exact absurd hv hsk
      cases hd : dead c with
      | true =>
        rw [broadcastAux_cons_dead hsk hd]
        obtain ⟨hc1, d1, hd1⟩ := hrem c s
        obtain ⟨hc2, d2, hd2⟩ := ih msg restrict (removeClientAux dead c fuel s)
        refine ⟨fun p hp => hc1 p (hc2 p hp), ⟨d1 ++ d2, ?_⟩⟩
        rw [hd2, hd1, List.append_assoc]
      | false =>
        rw [broadcastAux_cons_send hsk hd]
        obtain ⟨hc2, d2, hd2⟩ := ih msg restrict (sendTo c msg s)
        refine ⟨fun p hp => by simpa [sendTo] using hc2 p hp, ⟨(c, msg) :: d2, ?_⟩⟩
        rw [hd2]
        simp [sendTo]

theorem removeMono_all {dead : Handle → Bool} : ∀ fuel, RemoveMono dead fuel := by
  intro fuel
  induction fuel with
  | zero =>
    intro h s
    cases hl : clientLookup h s.clients with
    | none => simp [removeClientAux_none hl]
    | some info =>
      rw [removeClientAux_zero_some hl]
      exact ⟨fun p hp => mem_clientErase hp, ⟨[], by simp⟩⟩
  | succ f ih =>
    intro h s
    cases hl : clientLookup h s.clients with
    | none => simp [removeClientAux_none hl]
    | some info =>
      rw [removeClientAux_succ_some hl]
      obtain ⟨hc, d, hd⟩ :=
        broadcastAux_mono_of_remove ih (clientErase h s.clients)
          (pyStrIdent info ++ " disconnected") none ⟨clientErase h s.clients, s.outbox⟩
      exact ⟨fun p hp => mem_clientErase (hc p hp), ⟨d, hd⟩⟩

theorem broadcastAux_clients_subset {dead : Handle → Bool} {msg : String}
    {restrict : Option Handle} {pending : List (Handle × Ident)} {fuel : Nat}
    {s : ServerState} {p : Handle × Ident}
    (hp : p ∈ (broadcastAux dead msg restrict pending fuel s).clients) : p ∈ s.clients :=
  (broadcastAux_mono_of_remove (removeMono_all fuel) pending msg restrict s).1 p hp

theorem broadcastAux_outbox_mono {dead : Handle → Bool} {msg : String}
    {restrict : Option Handle} {pending : List (Handle × Ident)} {fuel : Nat}
    {s : ServerState} {x : Handle × String} (hx : x ∈ s.outbox) :
    x ∈ (broadcastAux dead msg restrict pending fuel s).outbox := by
  obtain ⟨d, hd⟩ := (broadcastAux_mono_of_remove (removeMono_all fuel) pending msg restrict s).2
  rw [hd]
  exact List.mem_append_left d hx

theorem removeClientAux_clients_subset {dead : Handle → Bool} {h : Handle} {fuel : Nat}
    {s : ServerState} {p : Handle × Ident}
    (hp : p ∈ (removeClientAux dead h fuel s).clients) : p ∈ s.clients :=
  (removeMono_all fuel h s).1 p hp

theorem keys_not_mem_broadcastAux {dead : Handle → Bool} {msg : String}
    {restrict : Option Handle} {pending : List (Handle × Ident)} {fuel : Nat}
    {s : ServerState} {k : Handle} (hk : k ∉ s.clients.map Prod.fst) :
    k ∉ (broadcastAux dead msg restrict pending fuel s).clients.map Prod.fst := by
  intro hmem
  obtain ⟨p, hp, hpk⟩ := List.mem_map.mp hmem
  exact hk (List.mem_map.mpr ⟨p, broadcastAux_clients_subset hp, hpk⟩)

theorem removeClientAux_keys_not_mem {dead : Handle → Bool} {h : Handle} {fuel : Nat}
    {s : ServerState} : h ∉ (removeClientAux dead h fuel s).clients.map Prod.fst := by
  cases hl : clientLookup h s.clients with
  | none =>
    rw [removeClientAux_none hl]
    exact clientLookup_eq_none.mp hl
  | some info =>
    cases fuel with
    | zero =>
      rw [removeClientAux_zero_some hl]
      exact keys_clientErase_not_mem
    | succ f =>
      rw [removeClientAux_succ_some hl]
      exact keys_not_mem_broadcastAux keys_clientErase_not_mem

theorem removeClient_keys_not_mem {dead : Handle → Bool} {h : Handle} {s : ServerState} :
    h ∉ (removeClient dead h s).clients.map Prod.fst :=
  removeClientAux_keys_not_mem

theorem removeClient_of_not_mem {dead : Handle → Bool} {h : Handle} {s : ServerState}
    (hm : h ∉ s.clients.map Prod.fst) : removeClient dead h s = s :=
  removeClientAux_none (clientLookup_eq_none.mpr hm)

theorem removeClient_idem {dead : Handle → Bool} {h : Handle} {s : ServerState} :
    removeClient dead h (removeClient dead h s) = removeClient dead h s :=
  removeClient_of_not_mem removeClient_keys_not_mem

end ChatApp

namespace ChatApp

/-! ## Fan-out over recipients whose sends all succeed -/

theorem broadcastAux_no_dead {dead : Handle → Bool} {msg : String}
    {restrict : Option Handle} {fuel : Nat} :
    ∀ (pending : List (Handle × Ident)) (s : ServerState),
      (∀ p ∈ pending, skipRecipient restrict p.1 = false → dead p.1 = false) →
      broadcastAux dead msg restrict pending fuel s =
        ⟨s.clients, s.outbox ++
          (pending.filter (fun p => !skipRecipient restrict p.1)).map
            (fun p => (p.1, msg))⟩ := by
  intro pending
  induction pending with
  | nil =>
    intro s _
    cases s
    simp [broadcastAux_nil]
  | cons q rest ih =>
    intro s hnd
    obtain ⟨c, i⟩ := q
    by_cases hsk : skipRecipient restrict c = true
    · rw [broadcastAux_cons_skip hsk,
        ih s (fun p hp hs => hnd p (List.mem_cons_of_mem _ hp) hs)]
      simp [hsk]
    · replace hsk : skipRecipient restrict c = false := by
        cases hv : skipRecipient restrict c
        · rfl
        · exact absurd hv hsk
      have hd : dead c = false := hnd (c, i) (List.mem_cons_self _ _) hsk
      rw [broadcastAux_cons_send hsk hd,
        ih (sendTo c msg s) (fun p hp hs => hnd p (List.mem_cons_of_mem _ hp) hs)]
      simp [sendTo, hsk]

theorem broadcast_none_no_dead {dead : Handle → Bool} {msg : String} {s : ServerState}
    (hnd : ∀ c ∈ s.clients.map Prod.fst, dead c = false) :
    broadcast dead msg none s =
      ⟨s.clients, s.outbox ++ s.clients.map (fun p => (p.1, msg))⟩ := by
  rw [broadcast, broadcastAux_no_dead s.clients s
    (fun p hp _ => hnd p.1 (List.mem_map.mpr ⟨p, hp, rfl⟩))]
  simp [skipRecipient]

theorem filter_key_single {r : Handle} {ir : Ident} :
    ∀ {l : List (Handle × Ident)}, (l.map Prod.fst).Nodup → (r, ir) ∈ l →
      l.filter (fun p => decide (p.1 = r)) = [(r, ir)] := by
  intro l
  induction l with
  | nil => intro _ hm; simp at hm
  | cons q rest ih =>
    intro hnodup hm
    simp only [List.map_cons, List.nodup_cons] at hnodup
    rcases List.mem_cons.mp hm with hq | hq
    · have hkeys : r ∉ rest.map Prod.fst := by
        rw [← hq] at hnodup
        exact hnodup.1
      have hfil : rest.filter (fun p => decide (p.1 = r)) = [] := by
        rw [List.filter_eq_nil_iff]
        intro p hp
        simp only [decide_eq_true_eq]
        intro hpr
        exact hkeys (List.mem_map.mpr ⟨p, hp, hpr⟩)
      simp [← hq, hfil]
    · have hq1 : ¬q.1 = r := by
        intro he
        exact hnodup.1 (he ▸ List.mem_map.mpr ⟨(r, ir), hq, rfl⟩)
      simp [hq1, ih hnodup.2 hq]

theorem broadcast_some_no_dead {dead : Handle → Bool} {msg : String} {s : ServerState}
    {r : Handle} {ir : Ident} (hr : dead r = false)
    (hnodup : (s.clients.map Prod.fst).Nodup) (hm : (r, ir) ∈ s.clients) :
    broadcast dead msg (some r) s = ⟨s.clients, s.outbox ++ [(r, msg)]⟩ := by
  have hnd : ∀ p ∈ s.clients, skipRecipient (some r) p.1 = false → dead p.1 = false := by
    intro p _ hs
    simp only [skipRecipient, decide_eq_false_iff_not, not_not] at hs
    rw [hs]
    exact hr
  rw [broadcast, broadcastAux_no_dead s.clients s hnd]
  have hfil : s.clients.filter (fun p => !skipRecipient (some r) p.1) =
      s.clients.filter (fun p => decide (p.1 = r)) := by
    apply List.filter_congr
    intro p _
    simp [skipRecipient]
  rw [hfil, filter_key_single hnodup hm]
  simp

end ChatApp

namespace ChatApp

/-! ## Fan-out with exactly one dead recipient -/

theorem broadcastAux_deliver_one_dead {dead : Handle → Bool} {k : Handle} {msg : String}
    {fuel : Nat} (ho : ∀ c, c ≠ k → dead c = false) :
    ∀ (pending : List (Handle × Ident)) (s : ServerState),
      ∀ p ∈ pending, p.1 ≠ k →
        (p.1, msg) ∈ (broadcastAux dead msg none pending fuel s).outbox := by
  intro pending
  induction pending with
  | nil => intro s p hp _; simp at hp
  | cons q rest ih =>
    intro s p hp hpk
    obtain ⟨c, i⟩ := q
    have hsk : skipRecipient none c = false := rfl
    cases hd : dead c with
    | true =>
      have hck : c = k := by
        by_contra hne
        rw [ho c hne] at hd
        exact Bool.false_ne_true hd
      rw [broadcastAux_cons_dead hsk hd]
      rcases List.mem_cons.mp hp with he | hr
      · exfalso
        apply hpk
        rw [he, hck]
      · exact ih (removeClientAux dead c fuel s) p hr hpk
    | false =>
      rw [broadcastAux_cons_send hsk hd]
      rcases List.mem_cons.mp hp with he | hr
      · apply broadcastAux_outbox_mono
        rw [he]
        simp [sendTo]
      · exact ih (sendTo c msg s) p hr hpk

theorem broadcastAux_prune_one_dead {dead : Handle → Bool} {k : Handle} {msg : String}
    {fuel : Nat} (hk : dead k = true) (ho : ∀ c, c ≠ k → dead c = false) :
    ∀ (pending : List (Handle × Ident)) (s : ServerState),
      ((∃ i, (k, i) ∈ pending) ∨ k ∉ s.clients.map Prod.fst) →
      k ∉ (broadcastAux dead msg none pending fuel s).clients.map Prod.fst := by
  intro pending
  induction pending with
  | nil =>
    intro s hcase
    rcases hcase with ⟨i, hi⟩ | hout
    · simp at hi
    · simpa [broadcastAux_nil] using hout
  | cons q rest ih =>
    intro s hcase
    obtain ⟨c, i⟩ := q
    have hsk : skipRecipient none c = false := rfl
    cases hd : dead c with
    | true =>
      have hck : c = k := by
        by_contra hne
        rw [ho c hne] at hd
        exact Bool.false_ne_true hd
      rw [broadcastAux_cons_dead hsk hd]
      apply ih
      right
      rw [hck]
      exact removeClientAux_keys_not_mem
    | false =>
      have hck : c ≠ k := by
        intro he
        rw [he, hk] at hd
        exact absurd hd (by simp)
      rw [broadcastAux_cons_send hsk hd]
      apply ih
      rcases hcase with ⟨j, hj⟩ | hout
      · rcases List.mem_cons.mp hj with he | hr
        · exact absurd (congrArg Prod.fst he).symm hck
        · exact Or.inl ⟨j, hr⟩
      · right
        simpa [sendTo] using hout

/-! ## Exact effect of a removal and a registration when all sends succeed -/

theorem removeClient_some_no_dead {dead : Handle → Bool} {h : Handle} {s : ServerState}
    {info : Ident} (hl : clientLookup h s.clients = some info)
    (hnd : ∀ c, dead c = false) :
    removeClient dead h s =
      ⟨clientErase h s.clients, s.outbox ++
        (clientErase h s.clients).map
          (fun p => (p.1, pyStrIdent info ++ " disconnected"))⟩ := by
  rw [removeClient, removeClientAux_succ_some hl,
    broadcastAux_no_dead (clientErase h s.clients)
      ⟨clientErase h s.clients, s.outbox⟩ (fun p _ _ => hnd p.1)]
  simp [skipRecipient]

theorem registerClient_no_dead {dead : Handle → Bool} {h : Handle} {u : String}
    {uid : Option Int} {s : ServerState} (hnew : h ∉ s.clients.map Prod.fst)
    (hnd : ∀ c, dead c = false) :
    registerClient dead h u uid s =
      ⟨s.clients ++ [(h, (u, uid))], s.outbox ++
        (s.clients ++ [(h, (u, uid))]).map
          (fun p => (p.1, u ++ " entered the chat!"))⟩ := by
  rw [registerClient]
  have hins : dictInsert h (u, uid) s.clients = s.clients ++ [(h, (u, uid))] :=
    dictInsert_of_not_mem hnew
  simp only [hins]
  rw [broadcast_none_no_dead (fun c _ => hnd c)]

end ChatApp

namespace ChatApp

/-! ## Claim theorems -/

/-- C1: in a broadcast fan-out over a registry snapshot in which exactly the
send to recipient `k` raises, the message is still delivered to every other
recipient of the snapshot, and `k` is no longer a registry key afterwards
(pruned on the first failed write).  The `outbox` starts empty so every
entry of the final log is a delivery of this very fan-out. -/
theorem broadcast_isolation (dead : Handle → Bool) (k : Handle) (msg : String)
    (s : ServerState) (hk : dead k = true) (ho : ∀ c, c ≠ k → dead c = false)
    (hmem : ∃ ik, (k, ik) ∈ s.clients) (_hout : s.outbox = []) :
    (∀ p ∈ s.clients, p.1 ≠ k → (p.1, msg) ∈ (broadcast dead msg none s).outbox) ∧
    k ∉ (broadcast dead msg none s).clients.map Prod.fst := by
  constructor
  · intro p hp hpk
    rw [broadcast]
    exact broadcastAux_deliver_one_dead ho s.clients s p hp hpk
  · rw [broadcast]
    obtain ⟨ik, hik⟩ := hmem
    exact broadcastAux_prune_one_dead hk ho s.clients s (Or.inl ⟨ik, hik⟩)

/-- C1 witness: three registered clients, the middle one dead. -/
theorem broadcast_isolation_witness :
    (∀ p ∈ ([(0, ("a", none)), (1, ("b", none)), (2, ("c", none))] :
        List (Handle × Ident)), p.1 ≠ 1 →
      (p.1, "hi") ∈ (broadcast (fun c => decide (c = 1)) "hi" none
        ⟨[(0, ("a", none)), (1, ("b", none)), (2, ("c", none))], []⟩).outbox) ∧
    (1 : Handle) ∉ (broadcast (fun c => decide (c = 1)) "hi" none
        ⟨[(0, ("a", none)), (1, ("b", none)), (2, ("c", none))], []⟩).clients.map Prod.fst :=
  broadcast_isolation (fun c => decide (c = 1)) 1 "hi"
    ⟨[(0, ("a", none)), (1, ("b", none)), (2, ("c", none))], []⟩
    (by decide) (fun c hc => decide_eq_false hc) ⟨("b", none), by decide⟩ rfl

/-- C2: evaluating the `"!exit"` frame on a two-client registry.  The
registry size does drop by one, but the departure notice broadcast to the
remaining session is the Python str of the popped tuple,
`(\x27Tester\x27, None) disconnected`, not `Tester disconnected`:
`ChatServer.remove_client` pops the whole `(username, user_id)` pair into a
variable annotated `str` and interpolates it. -/
theorem exit_departure_notice_is_tuple_repr :
    handleFrame (fun _ => false) 0 ⟨1, 1, 2024, 0, 0, 0⟩ "!exit"
        ⟨[(0, ("Tester", none)), (1, ("Tester2", none))], []⟩ =
      (⟨[(1, ("Tester2", none))], [(1, "(\x27Tester\x27, None) disconnected")]⟩, true) ∧
    "(\x27Tester\x27, None) disconnected" ≠ "Tester disconnected" := by
  constructor
  · simp [handleFrame, removeClient, removeClientAux, broadcastAux, clientLookup,
      clientErase, sendTo, pyStrIdent, pyStrOptInt, skipRecipient]
  · decide

/-- C3: removing an absent handle is a no-op that never raises, and
removing any handle twice in a row equals removing it once, so the second
removal emits no second departure broadcast. -/
theorem remove_absent_noop_and_idem (dead : Handle → Bool) (h : Handle) (s : ServerState)
    (hm : h ∉ s.clients.map Prod.fst) :
    removeClient dead h s = s ∧
    ∀ (h2 : Handle) (s2 : ServerState),
      removeClient dead h2 (removeClient dead h2 s2) = removeClient dead h2 s2 :=
  ⟨removeClient_of_not_mem hm, fun _ _ => removeClient_idem⟩

/-- C3 witness: handle 5 absent from a one-client registry. -/
theorem remove_absent_noop_and_idem_witness :
    removeClient (fun _ => false) 5 ⟨[(0, ("A", none))], []⟩ = ⟨[(0, ("A", none))], []⟩ ∧
    ∀ (h2 : Handle) (s2 : ServerState),
      removeClient (fun _ => false) h2 (removeClient (fun _ => false) h2 s2) =
        removeClient (fun _ => false) h2 s2 :=
  remove_absent_noop_and_idem (fun _ => false) 5 ⟨[(0, ("A", none))], []⟩ (by decide)

/-- C4: with identities `uA` then `uB` registered in that join order, a
`!who` frame from either handle sends exactly
`2 USERS ONLINE:\nuA\nuB` to the requester and to nobody else, and leaves
the registry unchanged. -/
theorem who_directory_reply (dead : Handle → Bool) (a b r : Handle) (uA uB : String)
    (iA iB : Option Int) (out : List (Handle × String)) (hab : a ≠ b)
    (hda : dead a = false) (hdb : dead b = false) (hr : r = a ∨ r = b) :
    showOnlineUsers dead r ⟨[(a, (uA, iA)), (b, (uB, iB))], out⟩ =
      ⟨[(a, (uA, iA)), (b, (uB, iB))],
        out ++ [(r, "2 USERS ONLINE:\n" ++ uA ++ "\n" ++ uB)]⟩ := by
  have hdr : dead r = false := by rcases hr with h1 | h1 <;> rw [h1] <;> assumption
  have hnodup : ((([(a, (uA, iA)), (b, (uB, iB))] :
      List (Handle × Ident)).map Prod.fst)).Nodup := by simp [hab]
  have hmem : (r, if r = a then (uA, iA) else (uB, iB)) ∈
      ([(a, (uA, iA)), (b, (uB, iB))] : List (Handle × Ident)) := by
    rcases hr with h1 | h1
    · rw [h1]; simp
    · have hne : ¬r = a := by rw [h1]; exact fun he => hab he.symm
      rw [if_neg hne, h1]; simp
  rw [showOnlineUsers]
  have husers : (([(a, (uA, iA)), (b, (uB, iB))] :
      List (Handle × Ident)).map (fun p => p.2.1)) = [uA, uB] := by simp
  rw [husers]
  have htext : toString ([uA, uB].length) ++ " USERS ONLINE:\n" ++ joinLines [uA, uB] =
      "2 USERS ONLINE:\n" ++ uA ++ "\n" ++ uB := by
    have e0 : toString (([uA, uB] : List String).length) = "2" := by
      show toString (2 : Nat) = "2"
      decide
    have ej : joinLines [uA, uB] = uA ++ "\n" ++ uB := by
      simp [joinLines]
    rw [e0, ej]
    have e1 : ("2" : String) ++ " USERS ONLINE:\n" = "2 USERS ONLINE:\n" := rfl
    rw [e1]
    simp [String.append_assoc]
  rw [htext]
  exact broadcast_some_no_dead hdr hnodup hmem

/-- C4 witness: identities A then B, the request issued by the second. -/
theorem who_directory_reply_witness :
    showOnlineUsers (fun _ => false) 1 ⟨[(0, ("A", none)), (1, ("B", none))], []⟩ =
      ⟨[(0, ("A", none)), (1, ("B", none))],
        [(1, "2 USERS ONLINE:\n" ++ "A" ++ "\n" ++ "B")]⟩ :=
  who_directory_reply (fun _ => false) 0 1 1 "A" "B" none none [] (by decide) rfl rfl
    (Or.inr rfl)

/-- C5: an unrestricted broadcast sends the message to every handle of the
registry snapshot, the sender of a chat message included; a broadcast
restricted to `r` sends to `r` and only to `r` — a filter, not an
exclusion. -/
theorem broadcast_restrict_semantics (dead : Handle → Bool) (msg : String)
    (s : ServerState) (r : Handle) (ir : Ident)
    (hnd : ∀ c ∈ s.clients.map Prod.fst, dead c = false)
    (hnodup : (s.clients.map Prod.fst).Nodup) (hr : (r, ir) ∈ s.clients) :
    (broadcast dead msg none s).clients = s.clients ∧
    (broadcast dead msg none s).outbox = s.outbox ++ s.clients.map (fun p => (p.1, msg)) ∧
    (∀ p ∈ s.clients, (p.1, msg) ∈ (broadcast dead msg none s).outbox) ∧
    (broadcast dead msg (some r) s).clients = s.clients ∧
    (broadcast dead msg (some r) s).outbox = s.outbox ++ [(r, msg)] := by
  have hdr : dead r = false := hnd r (List.mem_map.mpr ⟨(r, ir), hr, rfl⟩)
  refine ⟨?_, ?_, ?_, ?_, ?_⟩
  · rw [broadcast_none_no_dead hnd]
  · rw [broadcast_none_no_dead hnd]
  · intro p hp
    rw [broadcast_none_no_dead hnd]
    exact List.mem_append_right _ (List.mem_map.mpr ⟨p, hp, rfl⟩)
  · rw [broadcast_some_no_dead hdr hnodup hr]
  · rw [broadcast_some_no_dead hdr hnodup hr]

/-- C5 witness: two clients, one chat fan-out and one directory reply. -/
theorem broadcast_restrict_semantics_witness :
    (broadcast (fun _ => false) "m" none ⟨[(0, ("A", none)), (1, ("B", none))], []⟩).clients
        = [(0, ("A", none)), (1, ("B", none))] ∧
    (broadcast (fun _ => false) "m" none ⟨[(0, ("A", none)), (1, ("B", none))], []⟩).outbox
        = [] ++ ([(0, ("A", none)), (1, ("B", none))] :
            List (Handle × Ident)).map (fun p => (p.1, "m")) ∧
    (∀ p ∈ ([(0, ("A", none)), (1, ("B", none))] : List (Handle × Ident)),
      (p.1, "m") ∈ (broadcast (fun _ => false) "m" none
        ⟨[(0, ("A", none)), (1, ("B", none))], []⟩).outbox) ∧
    (broadcast (fun _ => false) "m" (some 1)
        ⟨[(0, ("A", none)), (1, ("B", none))], []⟩).clients
        = [(0, ("A", none)), (1, ("B", none))] ∧
    (broadcast (fun _ => false) "m" (some 1)
        ⟨[(0, ("A", none)), (1, ("B", none))], []⟩).outbox = [] ++ [(1, "m")] :=
  broadcast_restrict_semantics (fun _ => false) "m"
    ⟨[(0, ("A", none)), (1, ("B", none))], []⟩ 1 ("B", none)
    (fun c _ => rfl) (by decide) (by decide)

end ChatApp

namespace ChatApp

/-- C6 counterexample: a token with a valid signature, a future expiry and a
`username` claim but no `id` claim does not fail with Invalid — contrary to
the claim, `verify_token` succeeds and returns `None` for the missing id. -/
theorem verify_token_missing_id_still_ok :
    verify_token ⟨true, false, [("username", .str "Tester")]⟩ =
      .ok (some (.str "Tester")) none ∧
    verify_token ⟨true, false, [("username", .str "Tester")]⟩ ≠ .invalid := by
  constructor
  · decide
  · decide

/-- C6 (amended): `verify_token` fails with Invalid exactly when the
signature does not match the shared secret; fails with Expired exactly when
the signature validates and the expiry claim has passed; and when the
signature validates and the expiry is in the future it succeeds, returning
the `username` and `id` claim values as found, each None when absent —
absent claims never cause an Invalid failure. -/
theorem verify_token_branches (t : Token) :
    (verify_token t = .invalid ↔ t.sigValid = false) ∧
    (verify_token t = .expired ↔ t.sigValid = true ∧ t.expired = true) ∧
    (t.sigValid = true → t.expired = false →
      verify_token t = .ok (claimLookup "username" t.claims) (claimLookup "id" t.claims)) := by
  obtain ⟨sv, ex, cl⟩ := t
  cases sv <;> cases ex <;> simp [verify_token]

/-- C6 witness: a fully-populated valid token decodes to its two claims. -/
theorem verify_token_branches_witness :
    verify_token ⟨true, false, [("username", JVal.str "Tester"), ("id", JVal.num 4)]⟩ =
      .ok (some (.str "Tester")) (some (.num 4)) := by
  have hres :=
    (verify_token_branches
      ⟨true, false, [("username", JVal.str "Tester"), ("id", JVal.num 4)]⟩).2.2 rfl rfl
  rw [hres]
  decide

/-- C7 counterexample: `ChatServer.start` adds the entry to the registry
and only then broadcasts the arrival notice, so the snapshot used for the
arrival fan-out contains the just-added session and the notice is sent to
it too — the mutation broadcast is not restricted to the other sessions. -/
theorem arrival_broadcast_reaches_added_session :
    (0, "A entered the chat!") ∈
      (registerClient (fun _ => false) 0 "A" none ⟨[(1, ("B", none))], []⟩).outbox := by
  simp [registerClient, dictInsert, broadcast, broadcastAux, removeClientAux, sendTo,
    skipRecipient, clientLookup]

/-- C7 (amended): each membership-changing registry mutation triggers
exactly one broadcast over the registry as it stands after the mutation:
the departure notice goes to every remaining session and not to the removed
one; the arrival notice goes to every session registered after the add,
including the one just added. -/
theorem registry_mutation_broadcast_targets (dead : Handle → Bool) (h h2 : Handle)
    (u : String) (uid : Option Int) (info : Ident) (s s2 : ServerState)
    (hnd : ∀ c, dead c = false) (hl : clientLookup h s.clients = some info)
    (hnew : h2 ∉ s2.clients.map Prod.fst) :
    removeClient dead h s =
      ⟨clientErase h s.clients,
        s.outbox ++ (clientErase h s.clients).map
          (fun p => (p.1, pyStrIdent info ++ " disconnected"))⟩ ∧
    h ∉ (clientErase h s.clients).map Prod.fst ∧
    registerClient dead h2 u uid s2 =
      ⟨s2.clients ++ [(h2, (u, uid))],
        s2.outbox ++ (s2.clients ++ [(h2, (u, uid))]).map
          (fun p => (p.1, u ++ " entered the chat!"))⟩ ∧
    (h2, u ++ " entered the chat!") ∈ (registerClient dead h2 u uid s2).outbox := by
  refine ⟨removeClient_some_no_dead hl hnd, keys_clientErase_not_mem,
    registerClient_no_dead hnew hnd, ?_⟩
  rw [registerClient_no_dead hnew hnd]
  apply List.mem_append_right
  rw [List.map_append]
  apply List.mem_append_right
  simp

/-- C7 witness: removal of client 0 out of two, and registration of a fresh
client 2 alongside one existing session. -/
theorem registry_mutation_broadcast_targets_witness :
    removeClient (fun _ => false) 0 ⟨[(0, ("X", none)), (1, ("B", none))], []⟩ =
      ⟨clientErase 0 [(0, ("X", none)), (1, ("B", none))],
        [] ++ (clientErase 0 [(0, ("X", none)), (1, ("B", none))]).map
          (fun p => (p.1, pyStrIdent ("X", none) ++ " disconnected"))⟩ ∧
    (0 : Handle) ∉ (clientErase 0 [(0, ("X", none)), (1, ("B", none))]).map Prod.fst ∧
    registerClient (fun _ => false) 2 "A" none ⟨[(1, ("B", none))], []⟩ =
      ⟨[(1, ("B", none))] ++ [(2, ("A", none))],
        [] ++ ([(1, ("B", none))] ++ [(2, ("A", none))] : List (Handle × Ident)).map
          (fun p => (p.1, "A" ++ " entered the chat!"))⟩ ∧
    ((2 : Handle), "A" ++ " entered the chat!") ∈
      (registerClient (fun _ => false) 2 "A" none ⟨[(1, ("B", none))], []⟩).outbox :=
  registry_mutation_broadcast_targets (fun _ => false) 0 2 "A" none ("X", none)
    ⟨[(0, ("X", none)), (1, ("B", none))], []⟩ ⟨[(1, ("B", none))], []⟩
    (fun _ => rfl) (by decide) (by decide)

/-- C8: a zero-length read is handled with effects identical to an explicit
`"!exit"` frame — the same state transition (one registry removal with its
departure broadcast, nothing else sent: in particular no chat envelope for
the empty frame) and the same loop exit. -/
theorem zero_read_equals_exit (dead : Handle → Bool) (h : Handle) (now : Timestamp)
    (s : ServerState) :
    handleFrame dead h now "" s = handleFrame dead h now "!exit" s := by
  have h1 : ("" : String) ≠ "!exit" := by decide
  have h2 : ("" : String) ≠ "!who" := by decide
  rw [handleFrame, handleFrame]
  rw [if_neg h1, if_neg h2, if_pos rfl]
  cases hl : clientLookup h s.clients with
  | none => rw [removeClient_idem]
  | some info => rw [removeClient_idem]; simp

/-- C9: a chat frame from the session authenticated as Tester is relayed to
the session authenticated as Tester2 as exactly
`Tester [<DD/MM/YYYY HH:MM:SS>]: Hello!` (the envelope with the sender
username and the day-first timestamp), while the control frames `"!exit"`
and `"!who"` take their control branches and are never wrapped in an
envelope. -/
theorem chat_relay_envelope (dead : Handle → Bool) (a b : Handle) (iA iB : Option Int)
    (out : List (Handle × String)) (t : Timestamp) (_hab : a ≠ b)
    (hda : dead a = false) (hdb : dead b = false) :
    (handleFrame dead a t "Hello!"
        ⟨[(a, ("Tester", iA)), (b, ("Tester2", iB))], out⟩).1.outbox =
      out ++ [(a, "Tester [" ++ renderTimestamp t ++ "]: Hello!"),
              (b, "Tester [" ++ renderTimestamp t ++ "]: Hello!")] ∧
    (b, "Tester [" ++ renderTimestamp t ++ "]: Hello!") ∈
      (handleFrame dead a t "Hello!"
        ⟨[(a, ("Tester", iA)), (b, ("Tester2", iB))], out⟩).1.outbox ∧
    renderTimestamp ⟨7, 3, 2024, 15, 4, 5⟩ = "07/03/2024 15:04:05" ∧
    (∀ (d2 : Handle → Bool) (g : Handle) (t2 : Timestamp) (s2 : ServerState),
      (handleFrame d2 g t2 "!exit" s2).1 = removeClient d2 g s2) ∧
    (∀ (d2 : Handle → Bool) (g : Handle) (t2 : Timestamp) (s2 : ServerState),
      (handleFrame d2 g t2 "!who" s2).1 = showOnlineUsers d2 g s2) := by
  have hmain : (handleFrame dead a t "Hello!"
      ⟨[(a, ("Tester", iA)), (b, ("Tester2", iB))], out⟩).1.outbox =
      out ++ [(a, "Tester [" ++ renderTimestamp t ++ "]: Hello!"),
              (b, "Tester [" ++ renderTimestamp t ++ "]: Hello!")] := by
    have h1 : ("Hello!" : String) ≠ "!exit" := by decide
    have h2 : ("Hello!" : String) ≠ "!who" := by decide
    have h3 : ("Hello!" : String) ≠ "" := by decide
    have hl : clientLookup a ([(a, ("Tester", iA)), (b, ("Tester2", iB))] :
        List (Handle × Ident)) = some ("Tester", iA) := by
      simp [clientLookup]
    rw [handleFrame, if_neg h1, if_neg h2]
    rw [hl]
    simp only [if_neg h3]
    have hnd : ∀ c ∈ (([(a, ("Tester", iA)), (b, ("Tester2", iB))] :
        List (Handle × Ident)).map Prod.fst), dead c = false := by
      intro c hc
      simp only [List.map_cons, List.map_nil, List.mem_cons, List.not_mem_nil,
        or_false] at hc
      rcases hc with hc | hc
      · rw [hc]; exact hda
      · rw [hc]; exact hdb
    rw [broadcast_none_no_dead hnd]
    have henv : ("Tester" : String) ++ " [" ++ renderTimestamp t ++ "]: " ++ "Hello!" =
        "Tester [" ++ renderTimestamp t ++ "]: Hello!" := by
      have e1 : ("Tester" : String) ++ " [" = "Tester [" := rfl
      have e2 : ("]: " : String) ++ "Hello!" = "]: Hello!" := rfl
      rw [e1, String.append_assoc, e2]
    rw [henv]
    simp
  refine ⟨hmain, ?_, by decide, ?_, ?_⟩
  · rw [hmain]
    simp
  · intro d2 g t2 s2
    rw [handleFrame, if_pos rfl, removeClient_idem]
  · intro d2 g t2 s2
    have h1 : ("!who" : String) ≠ "!exit" := by decide
    rw [handleFrame, if_neg h1, if_pos rfl]

/-- C9 witness: concrete handles 0 and 1 and a concrete timestamp. -/
theorem chat_relay_envelope_witness :
    (handleFrame (fun _ => false) 0 ⟨7, 3, 2024, 15, 4, 5⟩ "Hello!"
        ⟨[(0, ("Tester", none)), (1, ("Tester2", none))], []⟩).1.outbox =
      [] ++ [(0, "Tester [" ++ renderTimestamp ⟨7, 3, 2024, 15, 4, 5⟩ ++ "]: Hello!"),
             (1, "Tester [" ++ renderTimestamp ⟨7, 3, 2024, 15, 4, 5⟩ ++ "]: Hello!")] ∧
    (1, "Tester [" ++ renderTimestamp ⟨7, 3, 2024, 15, 4, 5⟩ ++ "]: Hello!") ∈
      (handleFrame (fun _ => false) 0 ⟨7, 3, 2024, 15, 4, 5⟩ "Hello!"
        ⟨[(0, ("Tester", none)), (1, ("Tester2", none))], []⟩).1.outbox ∧
    renderTimestamp ⟨7, 3, 2024, 15, 4, 5⟩ = "07/03/2024 15:04:05" ∧
    (∀ (d2 : Handle → Bool) (g : Handle) (t2 : Timestamp) (s2 : ServerState),
      (handleFrame d2 g t2 "!exit" s2).1 = removeClient d2 g s2) ∧
    (∀ (d2 : Handle → Bool) (g : Handle) (t2 : Timestamp) (s2 : ServerState),
      (handleFrame d2 g t2 "!who" s2).1 = showOnlineUsers d2 g s2) :=
  chat_relay_envelope (fun _ => false) 0 1 none none [] ⟨7, 3, 2024, 15, 4, 5⟩
    (by decide) rfl rfl

/-- C10: a token minted by the `/login` route stores the numeric id under
the claim key `user_id` while `verify_token` reads the claim key `id`, so
verification succeeds with a `None` id and the registry entry created for
such a connection is exactly `(username, None)`. -/
theorem login_token_id_is_none (u : String) (uid : Int) (dead : Handle → Bool)
    (h : Handle) (s : ServerState) (hu : u ≠ "") (hnd : ∀ c, dead c = false) :
    verify_token (loginToken u uid) = .ok (some (.str u)) none ∧
    (h, (u, none)) ∈ (acceptClient dead h (loginToken u uid) s).clients := by
  have hv : verify_token (loginToken u uid) = .ok (some (.str u)) none := by
    simp [verify_token, loginToken, claimLookup]
  refine ⟨hv, ?_⟩
  have hvp : verifyPair (loginToken u uid) = (some (.str u), none) := by
    rw [verifyPair, hv]
  rw [acceptClient, hvp]
  simp only [if_neg hu]
  rw [registerClient]
  rw [broadcast_none_no_dead (fun c _ => hnd c)]
  exact mem_dictInsert_self

/-- C10 witness: the login token of user Tester with database id 7. -/
theorem login_token_id_is_none_witness :
    verify_token (loginToken "Tester" 7) = .ok (some (.str "Tester")) none ∧
    ((0 : Handle), ("Tester", (none : Option Int))) ∈
      (acceptClient (fun _ => false) 0 (loginToken "Tester" 7) ⟨[], []⟩).clients :=
  login_token_id_is_none "Tester" 7 (fun _ => false) 0 ⟨[], []⟩ (by decide) (fun _ => rfl)

end ChatApp
